import Mathlib

/-!
Verification of the gym-occupancy prediction engine of `z0rr0/ggp`.

Shallow embedding conventions:
* A Go `time.Time` instant is a Unix timestamp in seconds (`ℤ`, UTC).
  The Go zero time (`IsZero`) is modelled by `Option ℤ` where `none`
  stands for the zero value.
* Go `float64` arithmetic is modelled by `ℝ`; `math.Exp` is `Real.exp`.
* `uint8` loads are `ℕ` (the type admits 0..255, as in the source).
* Fallible operations return `Option`.

Sources embedded below: `predictor` (checker.go and the predictor proper),
`fetcher/fetcher.go` (the `currentLoad` parsing pipeline),
`databaser` (`SaveEvent` against the `events` table of init.sql,
`SaveManyHolidaysTx` against the `holidays` table), and the holiday
collection loop of `holidayer.getHolidays`.
-/

open scoped Classical

/-- UTC hour of a Unix timestamp, as Go `Time.Hour` computes it. -/
def hourOf (t : ℤ) : ℕ := ((t.ediv 3600).emod 24).toNat

theorem hourOf_lt (t : ℤ) : hourOf t < 24 := by
  unfold hourOf
  have h1 : (0 : ℤ) ≤ (t.ediv 3600).emod 24 := Int.emod_nonneg _ (by norm_num)
  have h2 : (t.ediv 3600).emod 24 < 24 := Int.emod_lt_of_pos _ (by norm_num)
  omega

/-- Go `Time.Weekday` numbering for a UTC Unix timestamp:
Sunday = 0, Monday = 1, …, Saturday = 6 (1970-01-01 was a Thursday = 4). -/
def weekday (t : ℤ) : ℕ := ((t.ediv 86400 + 4).emod 7).toNat

theorem weekday_lt (t : ℤ) : weekday t < 7 := by
  unfold weekday
  have h1 : (0 : ℤ) ≤ (t.ediv 86400 + 4).emod 7 := Int.emod_nonneg _ (by norm_num)
  have h2 : (t.ediv 86400 + 4).emod 7 < 7 := Int.emod_lt_of_pos _ (by norm_num)
  omega

/-- UTC hour as an index into the 24 hour columns. -/
def hourFin (t : ℤ) : Fin 24 := ⟨hourOf t, hourOf_lt t⟩

/-- Go weekday as an index into the 8 day-type rows (always < 7). -/
def weekdayFin (t : ℤ) : Fin 8 := ⟨weekday t, by have := weekday_lt t; omega⟩

/-- `databaser.Event`: a timestamped load observation. -/
structure Event where
  timestamp : ℤ
  load : ℕ
  deriving DecidableEq, Repr

/-- `Event.FloatLoad`: the load as a float. -/
noncomputable def Event.floatLoad (e : Event) : ℝ := (e.load : ℝ)

/-- `predictor.HourlyStats`: one cell of the 8×24 statistics matrix.
`lastUpdate = none` models the Go zero time (`LastUpdate.IsZero()`). -/
structure HourlyStats where
  lastUpdate : Option ℤ
  weightedSum : ℝ
  totalWeight : ℝ
  count : ℕ

/-- The zero-initialized cell allocated by `New`. -/
def HourlyStats.empty : HourlyStats := ⟨none, 0, 0, 0⟩

/-- `predictor.DayType` constants as declared in checker.go:
`Monday = iota`, …, `Sunday`, `Holiday`. -/
def DayType.Monday : Fin 8 := 0
def DayType.Tuesday : Fin 8 := 1
def DayType.Wednesday : Fin 8 := 2
def DayType.Thursday : Fin 8 := 3
def DayType.Friday : Fin 8 := 4
def DayType.Saturday : Fin 8 := 5
def DayType.Sunday : Fin 8 := 6
def DayType.Holiday : Fin 8 := 7

/-- `predictor.Prediction`. -/
structure Prediction where
  targetTime : ℤ
  hour : Fin 24
  load : ℝ
  confidence : ℝ
  isHoliday : Bool

/-- `predictor.Predictor`. The holiday checker is the `IsHoliday` capability
(`none` models a nil checker); the RW lock is irrelevant to the sequential
semantics. -/
structure Predictor where
  stats : Fin 8 → Fin 24 → HourlyStats
  holidayChecker : Option (ℤ → Bool)
  recentEvents : List Event
  decayLambda : ℝ
  minWeight : ℝ
  confidenceThreshold : ℝ
  maxRecentCount : ℕ

/-- `predictor.averageLoad` (25.0). -/
def averageLoad : ℝ := 25

/-- `predictor.New`: fresh predictor with zeroed statistics and default tunables. -/
def Predictor.New (holidayChecker : Option (ℤ → Bool)) : Predictor where
  stats := fun _ _ => HourlyStats.empty
  holidayChecker := holidayChecker
  recentEvents := []
  decayLambda := 0.1
  minWeight := 0.5
  confidenceThreshold := 20
  maxRecentCount := 40

/-- `Predictor.getDayType`: `Holiday` when the (non-nil) checker flags the
instant, otherwise `DayType(t.Weekday())` in Go's Sunday=0 numbering. -/
def Predictor.getDayType (p : Predictor) (t : ℤ) : Fin 8 :=
  match p.holidayChecker with
  | some chk => if chk t then DayType.Holiday else weekdayFin t
  | none => weekdayFin t

/-- `Predictor.AddEvent`: decay the target cell (when its last update is set
and the elapsed day count is positive), accumulate the observation, and push
the event into the bounded recent-events window. -/
noncomputable def Predictor.addEvent (p : Predictor) (event : Event) : Predictor :=
  let dayType := p.getDayType event.timestamp
  let hour := hourFin event.timestamp
  let stats := p.stats dayType hour
  let decayed :=
    match stats.lastUpdate with
    | some lu =>
        let daysSinceUpdate : ℝ := ((event.timestamp - lu : ℤ) : ℝ) / 3600 / 24
        if 0 < daysSinceUpdate then
          let decayFactor := Real.exp (-(p.decayLambda * daysSinceUpdate))
          { stats with weightedSum := stats.weightedSum * decayFactor
                       totalWeight := stats.totalWeight * decayFactor }
        else stats
    | none => stats
  let updated : HourlyStats :=
    { lastUpdate := some event.timestamp
      weightedSum := decayed.weightedSum + event.floatLoad
      totalWeight := decayed.totalWeight + 1
      count := decayed.count + 1 }
  let recent := p.recentEvents ++ [event]
  { p with
      stats := fun d h => if d = dayType ∧ h = hour then updated else p.stats d h
      recentEvents := if p.maxRecentCount < recent.length then recent.drop 1 else recent }

/-- `Predictor.calculateTrend`: slope between the oldest and newest events of
the recent window, zero when fewer than 3 events or the span is under 0.1 h. -/
noncomputable def Predictor.calculateTrend (p : Predictor) : ℝ :=
  if p.recentEvents.length < 3 then 0
  else
    let first := p.recentEvents.getD 0 ⟨0, 0⟩
    let lastEvent := p.recentEvents.getLastD ⟨0, 0⟩
    let hoursDiff : ℝ := ((lastEvent.timestamp - first.timestamp : ℤ) : ℝ) / 3600
    if hoursDiff < 0.1 then 0
    else ((lastEvent.load : ℝ) - (first.load : ℝ)) / hoursDiff

/-- `Predictor.fallbackPrediction`: `Σ weighted_sum / Σ total_weight` over the
24 hourly cells of the row (cells with non-positive weight skipped), or
`averageLoad` when the accumulated weight is not positive. -/
noncomputable def Predictor.fallbackPrediction (p : Predictor) (dayOfWeek : Fin 8) : ℝ :=
  let sum := ∑ h : Fin 24,
    if 0 < (p.stats dayOfWeek h).totalWeight then (p.stats dayOfWeek h).weightedSum else 0
  let weight := ∑ h : Fin 24,
    if 0 < (p.stats dayOfWeek h).totalWeight then (p.stats dayOfWeek h).totalWeight else 0
  if 0 < weight then sum / weight else averageLoad

/-- `Predictor.calculateConfidence`: effective-sample-size base, 0.7 holiday
penalty, freshness penalty `exp(-0.05 · daysSince)`. -/
noncomputable def Predictor.calculateConfidence
    (p : Predictor) (now : ℤ) (stats : HourlyStats) (dayType : Fin 8) : ℝ :=
  let base := min 1 (stats.totalWeight / p.confidenceThreshold)
  let base2 := if dayType = DayType.Holiday then base * 0.7 else base
  match stats.lastUpdate with
  | none => base2
  | some lu =>
      let daysSince : ℝ := ((now - lu : ℤ) : ℝ) / 3600 / 24
      base2 * Real.exp (-(0.05 * daysSince))

/-- `Predictor.getWeightedAverage`: weighted mean of one cell, `averageLoad`
when its weight is below 0.1. -/
noncomputable def Predictor.getWeightedAverage
    (p : Predictor) (dayType : Fin 8) (hour : Fin 24) : ℝ :=
  let stats := p.stats dayType hour
  if stats.totalWeight < 0.1 then averageLoad
  else stats.weightedSum / stats.totalWeight

/-- `Predictor.predictWithBlending`: plain cell mean for a non-holiday target;
for a holiday target, blend the `Holiday` row with the `Sunday` row at half
weight. -/
noncomputable def Predictor.predictWithBlending
    (p : Predictor) (targetTime : ℤ) (hour : Fin 24) : ℝ :=
  let isHoliday :=
    match p.holidayChecker with
    | some chk => chk targetTime
    | none => false
  if isHoliday then
    let holidayStats := p.stats DayType.Holiday hour
    let sundayStats := p.stats DayType.Sunday hour
    let holidayWeight := holidayStats.totalWeight
    let sundayWeight := sundayStats.totalWeight * 0.5
    let totalWeight := holidayWeight + sundayWeight
    if totalWeight < 0.1 then averageLoad
    else
      let holidayAvg :=
        if 0 < holidayStats.totalWeight
        then holidayStats.weightedSum / holidayStats.totalWeight else 0
      let sundayAvg :=
        if 0 < sundayStats.totalWeight
        then sundayStats.weightedSum / sundayStats.totalWeight else 0
      (holidayAvg * holidayWeight + sundayAvg * sundayWeight) / totalWeight
  else p.getWeightedAverage (weekdayFin targetTime) hour

/-- The base-prediction/confidence switch at the heart of `Predictor.Predict`,
factored out verbatim: given the precomputed target day type and hour, it
returns the pair (base prediction before trend correction, confidence). -/
noncomputable def Predictor.baseAndConfidence
    (p : Predictor) (now targetTime : ℤ) (dayType : Fin 8) (hour : Fin 24) : ℝ × ℝ :=
  let stats := p.stats dayType hour
  let blended := p.predictWithBlending targetTime hour
  if p.minWeight ≤ stats.totalWeight then
    (blended, p.calculateConfidence now stats dayType)
  else if dayType = DayType.Holiday then
    (blended,
      if p.minWeight ≤ (p.stats DayType.Sunday hour).totalWeight then 0.5 else 0.3)
  else
    (p.fallbackPrediction dayType, 0.3)

/-- `Predictor.Predict` with the implicit `time.Now()` made explicit as `now`. -/
noncomputable def Predictor.predict (p : Predictor) (now : ℤ) (hoursAhead : ℕ) : Prediction :=
  let targetTime := now + hoursAhead * 3600
  let dayType := p.getDayType targetTime
  let hour := hourFin targetTime
  let bc := p.baseAndConfidence now targetTime dayType hour
  let basePrediction :=
    if hoursAhead ≤ 3 ∧ 20 ≤ p.recentEvents.length then
      let trendWeight : ℝ := 0.3 / (hoursAhead : ℝ)
      bc.1 + p.calculateTrend * trendWeight * (hoursAhead : ℝ)
    else bc.1
  { targetTime := targetTime
    hour := hour
    load := max 0 (min 100 basePrediction)
    confidence := bc.2
    isHoliday := decide (dayType = DayType.Holiday) }

/-! ### Storage: the `events` table (`databaser.SaveEvent`, init.sql) -/

/-- The `events` table: rows keyed by `timestamp` (PRIMARY KEY in init.sql). -/
def EventsTable := List Event

/-- `DB.SaveEvent` runs a plain `INSERT INTO events (timestamp, load)` against
a table whose `timestamp` is the primary key, so under SQLite semantics the
insert errors out (`none`) when a row with the same timestamp already exists,
and appends the row otherwise. -/
def saveEvent (tbl : List Event) (event : Event) : Option (List Event) :=
  if tbl.any (fun r => decide (r.timestamp = event.timestamp)) then none
  else some (tbl ++ [event])

/-! ### Fetcher: the `currentLoad` parsing pipeline (`fetcher.getLoad`) -/

/-- `fetcher.Club`: the decoded JSON body. A missing `currentLoad` field
decodes to the zero value `""`, exactly as Go's `encoding/json` leaves it. -/
structure Club where
  id : ℤ
  title : String
  currentLoad : String

/-- Digit string to number, most significant digit first. -/
def digitsToNat (cs : List Char) : ℕ :=
  cs.foldl (fun a c => a * 10 + (c.toNat - 48)) 0

/-- `strconv.ParseUint(s, 10, 8)`: base-10 digits only, no sign, value must
fit 8 bits (≤ 255); anything else is an error (`none`). -/
def parseUint8 (s : String) : Option ℕ :=
  let cs := s.toList
  if cs.isEmpty then none
  else if cs.all (fun c => c.isDigit) then
    let n := digitsToNat cs
    if n ≤ 255 then some n else none
  else none

/-- `strings.TrimRight(s, "%")`: remove every trailing `%`. -/
def trimRightPercent (s : String) : String :=
  ⟨(s.toList.reverse.dropWhile (fun c => c = '%')).reverse⟩

/-- The parsing tail of `Fetcher.getLoad` on an HTTP-200 JSON body: an empty
`currentLoad` is rejected, otherwise the `%`-stripped string goes through
`strconv.ParseUint(_, 10, 8)`. -/
def getLoad (club : Club) : Option ℕ :=
  if club.currentLoad = "" then none
  else parseUint8 (trimRightPercent club.currentLoad)

/-- `Fetcher.Fetch` after a successful HTTP exchange: parse the load, save the
event via `DB.SaveEvent`, then emit it on the channel. On any failure nothing
is persisted and nothing is emitted. -/
def fetchStep (club : Club) (now : ℤ) (tbl : List Event) :
    Option (List Event × Event) :=
  match getLoad club with
  | none => none
  | some load =>
      let event : Event := ⟨now, load⟩
      match saveEvent tbl event with
      | none => none
      | some tbl2 => some (tbl2, event)

/-! ### Storage: the `holidays` table (`databaser.SaveManyHolidaysTx`) -/

/-- A calendar date as stored in the `holidays.day` DATE column. SQL `BETWEEN`
on the `YYYY-MM-DD` strings written by `DateOnly.Value` compares
chronologically, i.e. lexicographically on (year, month, day). -/
structure Day where
  y : ℕ
  m : ℕ
  d : ℕ
  deriving DecidableEq, Repr

/-- Chronological (lexicographic) order on stored dates. -/
def Day.le (a b : Day) : Prop :=
  a.y < b.y ∨ (a.y = b.y ∧ (a.m < b.m ∨ (a.m = b.m ∧ a.d ≤ b.d)))

/-- Strict chronological order (`time.Time.Before` / `After` on dates). -/
def Day.lt (a b : Day) : Prop :=
  a.y < b.y ∨ (a.y = b.y ∧ (a.m < b.m ∨ (a.m = b.m ∧ a.d < b.d)))

instance (a b : Day) : Decidable (Day.le a b) := by unfold Day.le; infer_instance

instance (a b : Day) : Decidable (Day.lt a b) := by unfold Day.lt; infer_instance

theorem Day.le_refl (a : Day) : Day.le a a := by unfold Day.le; omega

theorem Day.le_trans {a b c : Day} (h1 : Day.le a b) (h2 : Day.le b c) : Day.le a c := by
  unfold Day.le at *; omega

theorem Day.not_lt {a b : Day} (h : ¬ Day.lt a b) : Day.le b a := by
  unfold Day.lt at h; unfold Day.le; omega

theorem Day.lt_le {a b : Day} (h : Day.lt a b) : Day.le a b := by
  unfold Day.lt at h; unfold Day.le; omega

/-- `databaser.Holiday`: a (date, title) row of the `holidays` table. -/
structure Holiday where
  day : Day
  title : String
  deriving DecidableEq

/-- `INSERT OR REPLACE INTO holidays (day, title)` for one row: any row with
the same `day` primary key is replaced. -/
def insertHoliday (tbl : List Holiday) (h : Holiday) : List Holiday :=
  (tbl.filter fun r => !decide (r.day = h.day)) ++ [h]

/-- The batch `INSERT OR REPLACE` over the holiday list, in order. -/
def insertHolidays (tbl : List Holiday) (hs : List Holiday) : List Holiday :=
  hs.foldl insertHoliday tbl

/-- `DateOnly.StartOfYear` as a date. -/
def startOfYear (d : Day) : Day := ⟨d.y, 1, 1⟩

/-- `DateOnly.EndOfYear` as a date. -/
def endOfYear (d : Day) : Day := ⟨d.y, 12, 31⟩

/-- `databaser.SaveManyHolidaysTx`: for a non-empty list, find the minimum and
maximum day exactly as the Go loop does, delete every stored row whose day
lies `BETWEEN start_of_year(min) AND end_of_year(max)`, then insert the list
with `INSERT OR REPLACE`. An empty list is a no-op. -/
def saveManyHolidaysTx (tbl : List Holiday) (holidays : List Holiday) : List Holiday :=
  match holidays with
  | [] => tbl
  | h0 :: rest =>
      let minDay := rest.foldl (fun acc x => if Day.lt x.day acc then x.day else acc) h0.day
      let maxDay := rest.foldl (fun acc x => if Day.lt acc x.day then x.day else acc) h0.day
      let lo := startOfYear minDay
      let hi := endOfYear maxDay
      let kept := tbl.filter fun r => !(decide (Day.le lo r.day) && decide (Day.le r.day hi))
      insertHolidays kept holidays

/-! ### Holidayer: collecting holidays from the decoded calendar
(`holidayer.getHolidays`, after the HTTP/XML decoding) -/

/-- `holidayer.XMLDay` after XML decoding: the `d="MM.DD"` attribute is kept
as its parse result (`none` when `time.Parse("01.02", d)` would fail), with
the `t` type attribute and the `h` holiday reference. -/
structure XMLDay where
  dateMD : Option (ℕ × ℕ)
  dayType : ℤ
  holidayRef : ℤ

/-- The collection loop of `holidayer.getHolidays`: an empty `days` section
yields `nil`; otherwise each day whose type is 1 (holiday) or 2 (short day)
must parse and contributes a `Holiday` dated in the calendar year, titled by
the referenced `holidays` entry. -/
def collectHolidays (year : ℕ) (titles : ℤ → String) (days : List XMLDay) :
    Option (List Holiday) :=
  if days.isEmpty then some []
  else
    days.foldlM
      (fun acc d =>
        if d.dayType = 1 ∨ d.dayType = 2 then
          match d.dateMD with
          | some md => some (acc ++ [⟨⟨year, md.1, md.2⟩, titles d.holidayRef⟩])
          | none => none
        else some acc)
      []

/-! ### Helper lemmas -/

theorem weekdayFin_ne_holiday (t : ℤ) : weekdayFin t ≠ DayType.Holiday := by
  intro he
  have hlt := weekday_lt t
  have hv : (weekdayFin t).val = 7 := by rw [he]; rfl
  simp only [weekdayFin] at hv
  omega

/-- The weekday-to-day-type mapping exactly as the specification words it:
Monday = 0, Tuesday = 1, …, Sunday = 6. -/
def mondayFirstWeekday (t : ℤ) : ℕ := (weekday t + 6) % 7

/-- Claim C1 (amended): with a (non-nil) holiday checker installed,
`getDayType t` is `Holiday` precisely when the checker flags `t`; otherwise it
is `t`'s weekday in Go's `time.Weekday` numbering, i.e. Sunday = 0,
Monday = 1, …, Saturday = 6 — not the Monday = 0 mapping the claim states. -/
theorem C1_dayType (p : Predictor) (chk : ℤ → Bool) (t : ℤ)
    (hchk : p.holidayChecker = some chk) :
    (p.getDayType t = DayType.Holiday ↔ chk t = true) ∧
    (chk t = false → (p.getDayType t).val = weekday t) := by
  have h0 : p.getDayType t = if chk t then DayType.Holiday else weekdayFin t := by
    unfold Predictor.getDayType; rw [hchk]
  cases hc : chk t with
  | true => rw [h0, hc]; simp
  | false =>
      refine ⟨?_, fun _ => ?_⟩
      · rw [h0, hc]
        simp [weekdayFin_ne_holiday t]
      · rw [h0, hc]
        simp [weekdayFin]

/-- Witness for C1_dayType at a concrete checker and instant. -/
theorem C1_dayType_witness :
    (((Predictor.New (some (fun _ => false))).getDayType 0 = DayType.Holiday ↔
        (fun _ : ℤ => false) 0 = true) ∧
      ((fun _ : ℤ => false) 0 = false →
        ((Predictor.New (some (fun _ => false))).getDayType 0).val = weekday 0)) :=
  C1_dayType (Predictor.New (some (fun _ => false))) (fun _ => false) 0 rfl

/-- Claim C1 counterexample: `t = 1736121600` is 2025-01-06, a Monday, and no
holiday is flagged, yet `getDayType` returns 1 while the claimed
Monday = 0, …, Sunday = 6 mapping assigns Monday the value 0. -/
theorem C1_counterexample :
    ((Predictor.New (some (fun _ => false))).getDayType 1736121600).val = 1 ∧
    mondayFirstWeekday 1736121600 = 0 := by
  exact ⟨rfl, rfl⟩

/-- The multiplicative decay factor of one `AddEvent` call: 1 when the cell
was never updated or the elapsed day count is not positive, otherwise
`exp(-lambda · Δd)`. -/
noncomputable def decayFactor (lambda : ℝ) (lastUpdate : Option ℤ) (ts : ℤ) : ℝ :=
  match lastUpdate with
  | some lu =>
      if 0 < ((ts - lu : ℤ) : ℝ) / 3600 / 24
      then Real.exp (-(lambda * (((ts - lu : ℤ) : ℝ) / 3600 / 24)))
      else 1
  | none => 1

/-- `AddEvent` on the target cell: the new total weight is the old one scaled
by the decay factor, plus 1. -/
theorem addEvent_target_totalWeight (p : Predictor) (e : Event) :
    ((p.addEvent e).stats (p.getDayType e.timestamp) (hourFin e.timestamp)).totalWeight =
      (p.stats (p.getDayType e.timestamp) (hourFin e.timestamp)).totalWeight *
        decayFactor p.decayLambda
          (p.stats (p.getDayType e.timestamp) (hourFin e.timestamp)).lastUpdate e.timestamp +
        1 := by
  simp only [Predictor.addEvent]
  rw [if_pos ⟨trivial, trivial⟩]
  rcases hlu : (p.stats (p.getDayType e.timestamp) (hourFin e.timestamp)).lastUpdate with _ | lu
  · simp only [decayFactor, hlu]
    ring
  · simp only [decayFactor, hlu]
    by_cases hd : 0 < ((e.timestamp - lu : ℤ) : ℝ) / 3600 / 24
    · rw [if_pos hd, if_pos hd]
    · rw [if_neg hd, if_neg hd]
      ring

/-- `AddEvent` on the target cell: the new weighted sum is the old one scaled
by the decay factor, plus the event load. -/
theorem addEvent_target_weightedSum (p : Predictor) (e : Event) :
    ((p.addEvent e).stats (p.getDayType e.timestamp) (hourFin e.timestamp)).weightedSum =
      (p.stats (p.getDayType e.timestamp) (hourFin e.timestamp)).weightedSum *
        decayFactor p.decayLambda
          (p.stats (p.getDayType e.timestamp) (hourFin e.timestamp)).lastUpdate e.timestamp +
        (e.load : ℝ) := by
  simp only [Predictor.addEvent]
  rw [if_pos ⟨trivial, trivial⟩]
  rcases hlu : (p.stats (p.getDayType e.timestamp) (hourFin e.timestamp)).lastUpdate with _ | lu
  · simp only [decayFactor, hlu, Event.floatLoad]
    ring
  · simp only [decayFactor, hlu, Event.floatLoad]
    by_cases hd : 0 < ((e.timestamp - lu : ℤ) : ℝ) / 3600 / 24
    · rw [if_pos hd, if_pos hd]
    · rw [if_neg hd, if_neg hd]
      ring

/-- `AddEvent` on the target cell: the count increases by exactly one. -/
theorem addEvent_target_count (p : Predictor) (e : Event) :
    ((p.addEvent e).stats (p.getDayType e.timestamp) (hourFin e.timestamp)).count =
      (p.stats (p.getDayType e.timestamp) (hourFin e.timestamp)).count + 1 := by
  simp only [Predictor.addEvent]
  rw [if_pos ⟨trivial, trivial⟩]
  rcases hlu : (p.stats (p.getDayType e.timestamp) (hourFin e.timestamp)).lastUpdate with _ | lu
  · rfl
  · by_cases hd : 0 < ((e.timestamp - lu : ℤ) : ℝ) / 3600 / 24
    · simp only [hlu]
      rw [if_pos hd]
    · simp only [hlu]
      rw [if_neg hd]

/-- `AddEvent` on the target cell: the last update becomes the event's
timestamp. -/
theorem addEvent_target_lastUpdate (p : Predictor) (e : Event) :
    ((p.addEvent e).stats (p.getDayType e.timestamp) (hourFin e.timestamp)).lastUpdate =
      some e.timestamp := by
  simp only [Predictor.addEvent]
  rw [if_pos ⟨trivial, trivial⟩]

/-- `AddEvent` leaves every cell other than the target cell untouched. -/
theorem addEvent_frame (p : Predictor) (e : Event) :
    ∀ d h, ¬(d = p.getDayType e.timestamp ∧ h = hourFin e.timestamp) →
      (p.addEvent e).stats d h = p.stats d h := by
  intro d h hne
  simp only [Predictor.addEvent]
  rw [if_neg hne]

/-- The decay factor is always positive (and so never negative). -/
theorem decayFactor_pos (lambda : ℝ) (lastUpdate : Option ℤ) (ts : ℤ) :
    0 < decayFactor lambda lastUpdate ts := by
  rcases lastUpdate with _ | lu
  · norm_num [decayFactor]
  · simp only [decayFactor]
    by_cases hd : 0 < ((ts - lu : ℤ) : ℝ) / 3600 / 24
    · rw [if_pos hd]
      exact Real.exp_pos _
    · rw [if_neg hd]
      norm_num

/-- Claim C3: `AddEvent` updates exactly the cell at (day type, UTC hour) of
the event: both running sums are scaled by `exp(-decay_lambda · Δd)` when the
cell's last update is set and `Δd > 0` (decay factor 1 otherwise, i.e. the
decay is skipped for `Δd ≤ 0`), then the load is added to `weighted_sum`,
1.0 to `total_weight`, the count increases by exactly one, `last_update`
becomes the event's timestamp, and every other cell is untouched. -/
theorem C3_addEvent (p : Predictor) (e : Event) :
    ((p.addEvent e).stats (p.getDayType e.timestamp) (hourFin e.timestamp)).weightedSum =
      (p.stats (p.getDayType e.timestamp) (hourFin e.timestamp)).weightedSum *
        decayFactor p.decayLambda
          (p.stats (p.getDayType e.timestamp) (hourFin e.timestamp)).lastUpdate e.timestamp +
        (e.load : ℝ) ∧
    ((p.addEvent e).stats (p.getDayType e.timestamp) (hourFin e.timestamp)).totalWeight =
      (p.stats (p.getDayType e.timestamp) (hourFin e.timestamp)).totalWeight *
        decayFactor p.decayLambda
          (p.stats (p.getDayType e.timestamp) (hourFin e.timestamp)).lastUpdate e.timestamp +
        1 ∧
    ((p.addEvent e).stats (p.getDayType e.timestamp) (hourFin e.timestamp)).count =
      (p.stats (p.getDayType e.timestamp) (hourFin e.timestamp)).count + 1 ∧
    ((p.addEvent e).stats (p.getDayType e.timestamp) (hourFin e.timestamp)).lastUpdate =
      some e.timestamp ∧
    ∀ d h, ¬(d = p.getDayType e.timestamp ∧ h = hourFin e.timestamp) →
      (p.addEvent e).stats d h = p.stats d h :=
  ⟨addEvent_target_weightedSum p e, addEvent_target_totalWeight p e,
    addEvent_target_count p e, addEvent_target_lastUpdate p e, addEvent_frame p e⟩

/-- Witness for C3_addEvent: the frame part at a concrete state, event and
off-target cell. -/
theorem C3_addEvent_witness :
    ((Predictor.New none).addEvent ⟨0, 7⟩).stats ⟨5, by omega⟩ ⟨2, by omega⟩ =
      (Predictor.New none).stats ⟨5, by omega⟩ ⟨2, by omega⟩ :=
  (C3_addEvent (Predictor.New none) ⟨0, 7⟩).2.2.2.2 ⟨5, by omega⟩ ⟨2, by omega⟩ (by decide)

/-- Claim C7: a freshly constructed predictor with no ingested events predicts
load exactly 25.0 and confidence exactly 0.3 for every current time and
horizon, and reports `is_holiday` exactly as the holiday checker judges
`now + hours_ahead` hours. -/
theorem C7_emptyPredict (chk : ℤ → Bool) (now : ℤ) (hoursAhead : ℕ) :
    ((Predictor.New (some chk)).predict now hoursAhead).load = 25 ∧
    ((Predictor.New (some chk)).predict now hoursAhead).confidence = 0.3 ∧
    ((Predictor.New (some chk)).predict now hoursAhead).isHoliday =
      chk (now + hoursAhead * 3600) := by
  cases hc : chk (now + hoursAhead * 3600) with
  | false =>
      simp [Predictor.predict, Predictor.baseAndConfidence, Predictor.getDayType,
        Predictor.predictWithBlending, Predictor.getWeightedAverage,
        Predictor.fallbackPrediction, Predictor.calculateConfidence,
        Predictor.New, HourlyStats.empty, averageLoad, hc, weekdayFin_ne_holiday]
      norm_num
  | true =>
      simp [Predictor.predict, Predictor.baseAndConfidence, Predictor.getDayType,
        Predictor.predictWithBlending, Predictor.getWeightedAverage,
        Predictor.fallbackPrediction, Predictor.calculateConfidence,
        Predictor.New, HourlyStats.empty, averageLoad, hc, weekdayFin_ne_holiday]
      norm_num

/-- The blending policy exactly as the specification words it, as a function
of the (program's) target day type `dt`: for a non-holiday target the
weighted mean of the target cell or `AVERAGE_LOAD` when its weight is below
0.1; for a holiday target the Holiday/Sunday blend with Sunday at half
weight, each average being the cell's weighted mean or 0 when its weight is
zero. -/
noncomputable def blendedBaseSpec (p : Predictor) (dt : Fin 8) (hour : Fin 24) : ℝ :=
  if dt = DayType.Holiday then
    let wh := (p.stats DayType.Holiday hour).totalWeight
    let ws := (p.stats DayType.Sunday hour).totalWeight * 0.5
    if wh + ws < 0.1 then averageLoad
    else
      let avgH :=
        if (p.stats DayType.Holiday hour).totalWeight = 0 then 0
        else (p.stats DayType.Holiday hour).weightedSum /
          (p.stats DayType.Holiday hour).totalWeight
      let avgS :=
        if (p.stats DayType.Sunday hour).totalWeight = 0 then 0
        else (p.stats DayType.Sunday hour).weightedSum /
          (p.stats DayType.Sunday hour).totalWeight
      (avgH * wh + avgS * ws) / (wh + ws)
  else
    if (p.stats dt hour).totalWeight < 0.1 then averageLoad
    else (p.stats dt hour).weightedSum / (p.stats dt hour).totalWeight

theorem avgSpecEq (s w : ℝ) (hw : 0 ≤ w) :
    (if 0 < w then s / w else 0) = if w = 0 then 0 else s / w := by
  rcases hw.eq_or_lt with h | h
  · rw [← h]
    norm_num
  · rw [if_pos h, if_neg (ne_of_gt h)]

/-- Claim C4: with a holiday checker installed and (as in every reachable
state) non-negative cell weights, the blended base prediction of the code
coincides with the specification's formula at the target's day type. -/
theorem C4_blending (p : Predictor) (chk : ℤ → Bool) (targetTime : ℤ) (hour : Fin 24)
    (hchk : p.holidayChecker = some chk)
    (hH : 0 ≤ (p.stats DayType.Holiday hour).totalWeight)
    (hS : 0 ≤ (p.stats DayType.Sunday hour).totalWeight) :
    p.predictWithBlending targetTime hour =
      blendedBaseSpec p (p.getDayType targetTime) hour := by
  have h0 : p.getDayType targetTime =
      if chk targetTime then DayType.Holiday else weekdayFin targetTime := by
    unfold Predictor.getDayType; rw [hchk]
  cases hc : chk targetTime with
  | true =>
      have hdt : p.getDayType targetTime = DayType.Holiday := by rw [h0, hc]; rfl
      rw [hdt]
      unfold Predictor.predictWithBlending blendedBaseSpec
      rw [hchk]
      simp only [hc, if_pos rfl]
      rw [avgSpecEq _ _ hH, avgSpecEq _ _ hS]
      simp only [if_true]
  | false =>
      have hdt : p.getDayType targetTime = weekdayFin targetTime := by rw [h0, hc]; rfl
      rw [hdt]
      unfold Predictor.predictWithBlending blendedBaseSpec Predictor.getWeightedAverage
      rw [hchk]
      simp only [hc, if_neg (weekdayFin_ne_holiday targetTime)]
      rfl

/-- Witness for C4_blending on a concrete empty predictor. -/
theorem C4_blending_witness :
    (Predictor.New (some (fun _ => true))).predictWithBlending 0 ⟨0, by omega⟩ =
      blendedBaseSpec (Predictor.New (some (fun _ => true)))
        ((Predictor.New (some (fun _ => true))).getDayType 0) ⟨0, by omega⟩ :=
  C4_blending (Predictor.New (some (fun _ => true))) (fun _ => true) 0 ⟨0, by omega⟩
    rfl le_rfl le_rfl

/-- Evaluating `AddEvent` on a freshly constructed predictor: the event's cell
holds exactly one observation, all other cells stay empty. -/
theorem addEvent_new_stats (c : Option (ℤ → Bool)) (e : Event) (d : Fin 8) (h : Fin 24) :
    ((Predictor.New c).addEvent e).stats d h =
      if d = (Predictor.New c).getDayType e.timestamp ∧ h = hourFin e.timestamp
      then { lastUpdate := some e.timestamp, weightedSum := (e.load : ℝ),
             totalWeight := 1, count := 1 }
      else HourlyStats.empty := by
  by_cases hc : d = (Predictor.New c).getDayType e.timestamp ∧ h = hourFin e.timestamp
  · rw [if_pos hc]
    simp only [Predictor.addEvent]
    rw [if_pos hc]
    simp [Predictor.New, HourlyStats.empty, Event.floatLoad]
  · rw [if_neg hc]
    simp only [Predictor.addEvent]
    rw [if_neg hc]
    rfl

/-- Claim C5 (amended): when the target cell's weight is below `min_weight`
and it is not the case that the target day type is Holiday with a
sufficiently heavy Sunday cell, `Predict` returns confidence 0.3; the base
prediction (before trend correction and clamping) is overridden by the
day-type fallback only when the target day type is not Holiday — for a
Holiday target it remains the blended prediction. -/
theorem C5_lowWeightFallback (p : Predictor) (now : ℤ) (hoursAhead : ℕ)
    (hlow : (p.stats (p.getDayType (now + hoursAhead * 3600))
        (hourFin (now + hoursAhead * 3600))).totalWeight < p.minWeight)
    (hnot : ¬(p.getDayType (now + hoursAhead * 3600) = DayType.Holiday ∧
        p.minWeight ≤
          (p.stats DayType.Sunday (hourFin (now + hoursAhead * 3600))).totalWeight)) :
    (p.predict now hoursAhead).confidence = 0.3 ∧
    (p.getDayType (now + hoursAhead * 3600) ≠ DayType.Holiday →
      (p.baseAndConfidence now (now + hoursAhead * 3600)
          (p.getDayType (now + hoursAhead * 3600)) (hourFin (now + hoursAhead * 3600))).1 =
        p.fallbackPrediction (p.getDayType (now + hoursAhead * 3600))) ∧
    (p.getDayType (now + hoursAhead * 3600) = DayType.Holiday →
      (p.baseAndConfidence now (now + hoursAhead * 3600)
          (p.getDayType (now + hoursAhead * 3600)) (hourFin (now + hoursAhead * 3600))).1 =
        p.predictWithBlending (now + hoursAhead * 3600)
          (hourFin (now + hoursAhead * 3600))) := by
  by_cases hdt : p.getDayType (now + hoursAhead * 3600) = DayType.Holiday
  · have hsun : ¬ p.minWeight ≤
        (p.stats DayType.Sunday (hourFin (now + hoursAhead * 3600))).totalWeight :=
      fun hs => hnot ⟨hdt, hs⟩
    have hbc : p.baseAndConfidence now (now + hoursAhead * 3600)
        (p.getDayType (now + hoursAhead * 3600)) (hourFin (now + hoursAhead * 3600)) =
        (p.predictWithBlending (now + hoursAhead * 3600) (hourFin (now + hoursAhead * 3600)),
          0.3) := by
      unfold Predictor.baseAndConfidence
      rw [if_neg (not_le.mpr hlow), if_pos hdt, if_neg hsun]
    refine ⟨?_, fun hne => absurd hdt hne, fun _ => by rw [hbc]⟩
    show (p.baseAndConfidence now (now + hoursAhead * 3600)
        (p.getDayType (now + hoursAhead * 3600)) (hourFin (now + hoursAhead * 3600))).2 = 0.3
    rw [hbc]
  · have hbc : p.baseAndConfidence now (now + hoursAhead * 3600)
        (p.getDayType (now + hoursAhead * 3600)) (hourFin (now + hoursAhead * 3600)) =
        (p.fallbackPrediction (p.getDayType (now + hoursAhead * 3600)), 0.3) := by
      unfold Predictor.baseAndConfidence
      rw [if_neg (not_le.mpr hlow), if_neg hdt]
    refine ⟨?_, fun _ => by rw [hbc], fun he => absurd he hdt⟩
    show (p.baseAndConfidence now (now + hoursAhead * 3600)
        (p.getDayType (now + hoursAhead * 3600)) (hourFin (now + hoursAhead * 3600))).2 = 0.3
    rw [hbc]

/-- Witness for C5_lowWeightFallback on a fresh predictor without checker. -/
theorem C5_lowWeightFallback_witness :
    ((Predictor.New none).predict 0 1).confidence = 0.3 :=
  (C5_lowWeightFallback (Predictor.New none) 0 1
    (by norm_num [Predictor.New, HourlyStats.empty])
    (fun hcon => weekdayFin_ne_holiday (0 + 1 * 3600) hcon.1)).1

/-- Claim C5 counterexample: ingest one event at 1970-01-01T01:00Z load 30
with every day a holiday; predicting for target 02:00 (hours_ahead = 2) the
target Holiday cell and the Sunday cell are both below `min_weight`, so the
claim's precondition holds, yet the base prediction is the blended value 25
while the day-type fallback is 30. -/
theorem C5_counterexample :
    ((((Predictor.New (some (fun _ => true))).addEvent ⟨3600, 30⟩).stats
        (((Predictor.New (some (fun _ => true))).addEvent ⟨3600, 30⟩).getDayType 7200)
        (hourFin 7200)).totalWeight <
      ((Predictor.New (some (fun _ => true))).addEvent ⟨3600, 30⟩).minWeight) ∧
    (¬((((Predictor.New (some (fun _ => true))).addEvent ⟨3600, 30⟩).getDayType 7200 =
          DayType.Holiday) ∧
        ((Predictor.New (some (fun _ => true))).addEvent ⟨3600, 30⟩).minWeight ≤
          (((Predictor.New (some (fun _ => true))).addEvent ⟨3600, 30⟩).stats
            DayType.Sunday (hourFin 7200)).totalWeight)) ∧
    ((((Predictor.New (some (fun _ => true))).addEvent ⟨3600, 30⟩).baseAndConfidence 0 7200
        (((Predictor.New (some (fun _ => true))).addEvent ⟨3600, 30⟩).getDayType 7200)
        (hourFin 7200)).1 = 25) ∧
    (((Predictor.New (some (fun _ => true))).addEvent ⟨3600, 30⟩).fallbackPrediction
        (((Predictor.New (some (fun _ => true))).addEvent ⟨3600, 30⟩).getDayType 7200) = 30) ∧
    (25 : ℝ) ≠ 30 := by
  set q := (Predictor.New (some (fun _ : ℤ => true))).addEvent ⟨3600, 30⟩ with hq
  have hdt : q.getDayType 7200 = DayType.Holiday := rfl
  have e72 : hourFin 7200 = (⟨2, by omega⟩ : Fin 24) := rfl
  have hne21 : ¬((⟨2, by omega⟩ : Fin 24) = (⟨1, by omega⟩ : Fin 24)) := by decide
  have hneS : DayType.Sunday ≠ DayType.Holiday := by decide
  have hchk : q.holidayChecker = some (fun _ : ℤ => true) := rfl
  have hminW : q.minWeight = 0.5 := rfl
  have hcell : q.stats DayType.Holiday (⟨1, by omega⟩ : Fin 24) =
      { lastUpdate := some 3600, weightedSum := 30, totalWeight := 1, count := 1 } := by
    rw [hq, addEvent_new_stats, if_pos ⟨rfl, rfl⟩]
    norm_num
  have hempty : ∀ (d : Fin 8) (h : Fin 24),
      ¬(d = DayType.Holiday ∧ h = (⟨1, by omega⟩ : Fin 24)) →
      q.stats d h = HourlyStats.empty := by
    intro d h hne
    rw [hq, addEvent_new_stats,
      show (Predictor.New (some (fun _ : ℤ => true))).getDayType 3600 = DayType.Holiday from rfl,
      show hourFin 3600 = (⟨1, by omega⟩ : Fin 24) from rfl, if_neg hne]
  refine ⟨?_, ?_, ?_, ?_, by norm_num⟩
  · rw [hdt, e72, hempty _ _ (fun hc => hne21 hc.2), hminW]
    norm_num [HourlyStats.empty]
  · rintro ⟨-, hs⟩
    rw [e72, hempty _ _ (fun hc => hneS hc.1), hminW] at hs
    norm_num [HourlyStats.empty] at hs
  · rw [hdt, e72]
    have htw : (q.stats DayType.Holiday (⟨2, by omega⟩ : Fin 24)).totalWeight = 0 := by
      rw [hempty _ _ (fun hc => hne21 hc.2)]
      rfl
    simp only [Predictor.baseAndConfidence]
    rw [htw, hminW, if_neg (by norm_num : ¬ ((0.5 : ℝ) ≤ 0)), if_pos trivial]
    show q.predictWithBlending 7200 (⟨2, by omega⟩ : Fin 24) = 25
    simp only [Predictor.predictWithBlending]
    rw [hchk]
    simp only [eq_self_iff_true, if_true]
    rw [hempty DayType.Holiday _ (fun hc => hne21 hc.2),
      hempty DayType.Sunday _ (fun hc => hneS hc.1)]
    norm_num [HourlyStats.empty, averageLoad]
  · rw [hdt]
    simp only [Predictor.fallbackPrediction]
    have hterm1 : ∀ h : Fin 24,
        (if 0 < (q.stats DayType.Holiday h).totalWeight
          then (q.stats DayType.Holiday h).weightedSum else 0) =
        if h = (⟨1, by omega⟩ : Fin 24) then (30 : ℝ) else 0 := by
      intro h
      by_cases hh : h = (⟨1, by omega⟩ : Fin 24)
      · subst hh
        rw [hcell]
        norm_num
      · rw [hempty _ _ (fun hc => hh hc.2), if_neg hh]
        norm_num [HourlyStats.empty]
    have hterm2 : ∀ h : Fin 24,
        (if 0 < (q.stats DayType.Holiday h).totalWeight
          then (q.stats DayType.Holiday h).totalWeight else 0) =
        if h = (⟨1, by omega⟩ : Fin 24) then (1 : ℝ) else 0 := by
      intro h
      by_cases hh : h = (⟨1, by omega⟩ : Fin 24)
      · subst hh
        rw [hcell]
        norm_num
      · rw [hempty _ _ (fun hc => hh hc.2), if_neg hh]
        norm_num [HourlyStats.empty]
    rw [Finset.sum_congr rfl (fun h _ => hterm1 h), Finset.sum_congr rfl (fun h _ => hterm2 h),
      Finset.sum_ite_eq' Finset.univ (⟨1, by omega⟩ : Fin 24) (fun _ => (30 : ℝ)),
      Finset.sum_ite_eq' Finset.univ (⟨1, by omega⟩ : Fin 24) (fun _ => (1 : ℝ))]
    norm_num

/-- Invariant of reachable predictor states relative to a prediction instant:
every cell has non-negative weight and was last updated no later than `now`. -/
def StateOK (p : Predictor) (now : ℤ) : Prop :=
  ∀ d h, 0 ≤ (p.stats d h).totalWeight ∧
    ∀ lu, (p.stats d h).lastUpdate = some lu → lu ≤ now

theorem stateOK_new (c : Option (ℤ → Bool)) (now : ℤ) : StateOK (Predictor.New c) now := by
  intro d h
  refine ⟨le_refl 0, ?_⟩
  intro lu hlu
  simp [Predictor.New, HourlyStats.empty] at hlu

theorem stateOK_addEvent (p : Predictor) (e : Event) (now : ℤ)
    (hp : StateOK p now) (he : e.timestamp ≤ now) : StateOK (p.addEvent e) now := by
  intro d h
  by_cases hc : d = p.getDayType e.timestamp ∧ h = hourFin e.timestamp
  · obtain ⟨h1, h2⟩ := hc
    subst h1
    subst h2
    constructor
    · rw [addEvent_target_totalWeight]
      have hf := decayFactor_pos p.decayLambda
        (p.stats (p.getDayType e.timestamp) (hourFin e.timestamp)).lastUpdate e.timestamp
      have hw := (hp (p.getDayType e.timestamp) (hourFin e.timestamp)).1
      nlinarith
    · intro lu hlu
      rw [addEvent_target_lastUpdate] at hlu
      injection hlu with h3
      subst h3
      exact he
  · rw [addEvent_frame p e d h hc]
    exact hp d h

theorem stateOK_foldl (l : List Event) (now : ℤ)
    (hts : ∀ e ∈ l, e.timestamp ≤ now) (p : Predictor) (hp : StateOK p now) :
    StateOK (l.foldl Predictor.addEvent p) now := by
  induction l generalizing p with
  | nil => exact hp
  | cons a t ih =>
      exact ih (fun e hmem => hts e (List.mem_cons_of_mem _ hmem)) _
        (stateOK_addEvent p a now hp (hts a (List.mem_cons_self _ _)))

theorem foldl_confThreshold (l : List Event) (p : Predictor) :
    (l.foldl Predictor.addEvent p).confidenceThreshold = p.confidenceThreshold := by
  induction l generalizing p with
  | nil => rfl
  | cons a t ih => exact ih _

theorem calculateConfidence_mem (p : Predictor) (now : ℤ) (s : HourlyStats) (dt : Fin 8)
    (hw : 0 ≤ s.totalWeight) (hct : p.confidenceThreshold = 20)
    (hlu : ∀ lu, s.lastUpdate = some lu → lu ≤ now) :
    0 ≤ p.calculateConfidence now s dt ∧ p.calculateConfidence now s dt ≤ 1 := by
  simp only [Predictor.calculateConfidence, hct]
  have hb0 : 0 ≤ min 1 (s.totalWeight / 20) := le_min (by norm_num) (by positivity)
  have hb1 : min 1 (s.totalWeight / 20) ≤ 1 := min_le_left _ _
  have h20 : 0 ≤ if dt = DayType.Holiday then min 1 (s.totalWeight / 20) * 0.7
      else min 1 (s.totalWeight / 20) := by
    split
    · nlinarith
    · exact hb0
  have h21 : (if dt = DayType.Holiday then min 1 (s.totalWeight / 20) * 0.7
      else min 1 (s.totalWeight / 20)) ≤ 1 := by
    split
    · nlinarith
    · exact hb1
  rcases hs : s.lastUpdate with _ | lu
  · exact ⟨h20, h21⟩
  · have hle : lu ≤ now := hlu lu hs
    have hd : (0 : ℝ) ≤ ((now - lu : ℤ) : ℝ) / 3600 / 24 := by
      have hnn : (0 : ℝ) ≤ ((now - lu : ℤ) : ℝ) := by
        exact_mod_cast Int.sub_nonneg.mpr hle
      exact div_nonneg (div_nonneg hnn (by norm_num)) (by norm_num)
    have hexp0 : (0 : ℝ) < Real.exp (-(0.05 * (((now - lu : ℤ) : ℝ) / 3600 / 24))) :=
      Real.exp_pos _
    have hexp1 : Real.exp (-(0.05 * (((now - lu : ℤ) : ℝ) / 3600 / 24))) ≤ 1 := by
      have harg : -(0.05 * (((now - lu : ℤ) : ℝ) / 3600 / 24)) ≤ 0 := by nlinarith
      calc Real.exp (-(0.05 * (((now - lu : ℤ) : ℝ) / 3600 / 24)))
          ≤ Real.exp 0 := Real.exp_le_exp.mpr harg
        _ = 1 := Real.exp_zero
    constructor
    · exact mul_nonneg h20 hexp0.le
    · nlinarith

/-- Claim C6 (amended): for every state reached by ingesting a sequence of
events none of which is timestamped after the prediction instant, the
confidence of `Predict` lies in [0, 1]. (For a future-dated event the
freshness factor exceeds 1 and the bound fails, see the counterexample.) -/
theorem C6_confidence (c : Option (ℤ → Bool)) (events : List Event) (now : ℤ)
    (hoursAhead : ℕ) (hts : ∀ e ∈ events, e.timestamp ≤ now) :
    0 ≤ ((events.foldl Predictor.addEvent (Predictor.New c)).predict now hoursAhead).confidence ∧
    ((events.foldl Predictor.addEvent (Predictor.New c)).predict now hoursAhead).confidence ≤ 1 := by
  have hok : StateOK (events.foldl Predictor.addEvent (Predictor.New c)) now :=
    stateOK_foldl events now hts _ (stateOK_new c now)
  have hct : (events.foldl Predictor.addEvent (Predictor.New c)).confidenceThreshold = 20 := by
    rw [foldl_confThreshold]
    rfl
  have hcone : ((events.foldl Predictor.addEvent (Predictor.New c)).predict
        now hoursAhead).confidence =
      ((events.foldl Predictor.addEvent (Predictor.New c)).baseAndConfidence now
        (now + hoursAhead * 3600)
        ((events.foldl Predictor.addEvent (Predictor.New c)).getDayType
          (now + hoursAhead * 3600))
        (hourFin (now + hoursAhead * 3600))).2 := rfl
  rw [hcone]
  simp only [Predictor.baseAndConfidence]
  split_ifs with h1 h2 h3
  · exact calculateConfidence_mem _ now _ _ ((hok _ _).1) hct ((hok _ _).2)
  · constructor <;> norm_num
  · constructor <;> norm_num
  · constructor <;> norm_num

/-- Witness for C6_confidence on the empty event list. -/
theorem C6_confidence_witness :
    0 ≤ ((List.foldl Predictor.addEvent (Predictor.New none) []).predict 0 1).confidence ∧
    ((List.foldl Predictor.addEvent (Predictor.New none) []).predict 0 1).confidence ≤ 1 :=
  C6_confidence none [] 0 1 (fun e he => absurd he (List.not_mem_nil e))

/-- Claim C6 counterexample: ingesting a single event dated 2100 days in the
future (timestamp 181443600, same weekday and hour as the prediction target)
and predicting at `now = 0` for one hour ahead produces a confidence strictly
greater than 1: the freshness factor is `exp` of a large positive number. -/
theorem C6_counterexample :
    1 < ((List.foldl Predictor.addEvent (Predictor.New (some (fun _ => false)))
        [{ timestamp := 181443600, load := 50 }]).predict 0 1).confidence := by
  show 1 < (((Predictor.New (some (fun _ => false))).addEvent
    ⟨181443600, 50⟩).predict 0 1).confidence
  set q := (Predictor.New (some (fun _ : ℤ => false))).addEvent ⟨181443600, 50⟩ with hq
  have hcell : q.stats (⟨4, by omega⟩ : Fin 8) (⟨1, by omega⟩ : Fin 24) =
      { lastUpdate := some 181443600, weightedSum := 50, totalWeight := 1, count := 1 } := by
    rw [hq, addEvent_new_stats, if_pos ⟨rfl, rfl⟩]
    norm_num
  have hcone : (q.predict 0 1).confidence =
      (q.baseAndConfidence 0 (0 + (1 : ℕ) * 3600) (q.getDayType (0 + (1 : ℕ) * 3600))
        (hourFin (0 + (1 : ℕ) * 3600))).2 := rfl
  rw [hcone]
  have hdt : q.getDayType (0 + (1 : ℕ) * 3600) = (⟨4, by omega⟩ : Fin 8) := rfl
  have e1 : hourFin (0 + (1 : ℕ) * 3600) = (⟨1, by omega⟩ : Fin 24) := rfl
  rw [hdt, e1]
  simp only [Predictor.baseAndConfidence]
  have hminW : q.minWeight = 0.5 := rfl
  have hct : q.confidenceThreshold = 20 := rfl
  have htw : (q.stats (⟨4, by omega⟩ : Fin 8) (⟨1, by omega⟩ : Fin 24)).totalWeight = 1 := by
    rw [hcell]
  rw [htw, hminW, if_pos (by norm_num : (0.5 : ℝ) ≤ 1), hcell]
  simp only [Predictor.calculateConfidence, hct]
  rw [if_neg (by decide : ¬ (⟨4, by omega⟩ : Fin 8) = DayType.Holiday)]
  have hargeq : -(0.05 * (((0 - 181443600 : ℤ) : ℝ) / 3600 / 24)) = 50401 / 480 := by
    norm_num
  rw [hargeq]
  have hmin : min (1 : ℝ) ((1 : ℝ) / 20) = 1 / 20 := min_eq_right (by norm_num)
  rw [hmin]
  have hexp := Real.add_one_le_exp ((50401 : ℝ) / 480)
  nlinarith

/-- Claim C2 (code facts): the load parser accepts `"101%"` — it strips the
`%`, parses 101 as an unsigned 8-bit value and returns it without any
[0, 100] range check — and the fetch step then persists and emits an event
with load 101; while `"abc%"`, `""` (and hence a missing `currentLoad`,
which decodes to `""`) are rejected with no event persisted or emitted. -/
theorem C2_getLoad :
    getLoad { id := 1, title := "Test", currentLoad := "101%" } = some 101 ∧
    fetchStep { id := 1, title := "Test", currentLoad := "101%" } 0 [] =
      some ([{ timestamp := 0, load := 101 }], { timestamp := 0, load := 101 }) ∧
    getLoad { id := 1, title := "Test", currentLoad := "abc%" } = none ∧
    getLoad { id := 1, title := "Test", currentLoad := "" } = none ∧
    fetchStep { id := 1, title := "Test", currentLoad := "abc%" } 0 [] = none := by
  refine ⟨?_, ?_, ?_, ?_, ?_⟩ <;> decide

/-- Claim C8 (amended): `SaveEvent` runs a plain `INSERT`, so persisting a
second event with an already-stored timestamp fails on the primary key and
nothing is written; only the bulk paths use `INSERT OR REPLACE`. -/
theorem C8_saveEvent (tbl : List Event) (e : Event)
    (hdup : ∃ r ∈ tbl, r.timestamp = e.timestamp) :
    saveEvent tbl e = none := by
  obtain ⟨r, hr, ht⟩ := hdup
  unfold saveEvent
  rw [if_pos]
  exact List.any_eq_true.mpr ⟨r, hr, decide_eq_true ht⟩

/-- Witness for C8_saveEvent at a concrete two-row table. -/
theorem C8_saveEvent_witness :
    saveEvent [{ timestamp := 5, load := 1 }, { timestamp := 7, load := 2 }]
      { timestamp := 7, load := 9 } = none :=
  C8_saveEvent _ _ ⟨{ timestamp := 7, load := 2 }, by decide, rfl⟩

/-- Claim C8 counterexample: the claimed replace-on-collision does not happen —
saving a second event with the timestamp of the first returns an error
(`none`), while the same insert into an empty table succeeds. -/
theorem C8_counterexample :
    saveEvent [{ timestamp := 100, load := 50 }] { timestamp := 100, load := 60 } = none ∧
    saveEvent [] { timestamp := 100, load := 50 } =
      some [{ timestamp := 100, load := 50 }] := by
  refine ⟨?_, ?_⟩ <;> decide

/-- Claim C10: the transactional holiday bulk save with an empty list is a
no-op on the table, and the holiday collection loop yields the empty list
whenever no day of the calendar has type 1 or 2 — so an empty upstream
calendar never erases stored holidays. -/
theorem C10_emptySave (tbl : List Holiday) (year : ℕ) (titles : ℤ → String)
    (days : List XMLDay) (hq : ∀ d ∈ days, d.dayType ≠ 1 ∧ d.dayType ≠ 2) :
    collectHolidays year titles days = some [] ∧
    saveManyHolidaysTx tbl [] = tbl := by
  refine ⟨?_, rfl⟩
  unfold collectHolidays
  by_cases he : days.isEmpty
  · rw [if_pos he]
  · rw [if_neg he]
    have key : ∀ (l : List XMLDay) (acc : List Holiday),
        (∀ d ∈ l, d.dayType ≠ 1 ∧ d.dayType ≠ 2) →
        (l.foldlM (fun acc d =>
          if d.dayType = 1 ∨ d.dayType = 2 then
            match d.dateMD with
            | some md => some (acc ++ [⟨⟨year, md.1, md.2⟩, titles d.holidayRef⟩])
            | none => none
          else some acc) acc) = some acc := by
      intro l
      induction l with
      | nil => intro acc _; rfl
      | cons a t ih =>
          intro acc h
          have ha := h a (List.mem_cons_self _ _)
          rw [List.foldlM_cons, if_neg (by tauto)]
          exact ih acc (fun d hd => h d (List.mem_cons_of_mem _ hd))
    exact key days [] hq

/-- Witness for C10_emptySave with one non-qualifying calendar day. -/
theorem C10_emptySave_witness :
    collectHolidays 2024 (fun _ => "t") [{ dateMD := some (3, 1), dayType := 0, holidayRef := 1 }] =
      some [] ∧
    saveManyHolidaysTx [⟨⟨2024, 1, 1⟩, "Old"⟩] [] = [⟨⟨2024, 1, 1⟩, "Old"⟩] :=
  C10_emptySave [⟨⟨2024, 1, 1⟩, "Old"⟩] 2024 (fun _ => "t")
    [{ dateMD := some (3, 1), dayType := 0, holidayRef := 1 }] (by decide)

/-- The Go minimum-day loop of `SaveManyHolidaysTx` yields a lower bound for
the starting day and every listed day. -/
theorem minFold_le (init : Day) (l : List Holiday) :
    Day.le (l.foldl (fun acc x => if Day.lt x.day acc then x.day else acc) init) init ∧
    ∀ x ∈ l,
      Day.le (l.foldl (fun acc x => if Day.lt x.day acc then x.day else acc) init) x.day := by
  induction l generalizing init with
  | nil => exact ⟨Day.le_refl init, fun x hx => absurd hx (List.not_mem_nil x)⟩
  | cons a t ih =>
      rw [List.foldl_cons]
      by_cases hd : Day.lt a.day init
      · rw [if_pos hd]
        obtain ⟨g1, g2⟩ := ih a.day
        refine ⟨Day.le_trans g1 (Day.lt_le hd), ?_⟩
        intro x hx
        rcases List.mem_cons.mp hx with h | h
        · rw [h]
          exact g1
        · exact g2 x h
      · rw [if_neg hd]
        obtain ⟨g1, g2⟩ := ih init
        refine ⟨g1, ?_⟩
        intro x hx
        rcases List.mem_cons.mp hx with h | h
        · rw [h]
          exact Day.le_trans g1 (Day.not_lt hd)
        · exact g2 x h

/-- The Go maximum-day loop of `SaveManyHolidaysTx` yields an upper bound for
the starting day and every listed day. -/
theorem maxFold_ge (init : Day) (l : List Holiday) :
    Day.le init (l.foldl (fun acc x => if Day.lt acc x.day then x.day else acc) init) ∧
    ∀ x ∈ l,
      Day.le x.day (l.foldl (fun acc x => if Day.lt acc x.day then x.day else acc) init) := by
  induction l generalizing init with
  | nil => exact ⟨Day.le_refl init, fun x hx => absurd hx (List.not_mem_nil x)⟩
  | cons a t ih =>
      rw [List.foldl_cons]
      by_cases hd : Day.lt init a.day
      · rw [if_pos hd]
        obtain ⟨g1, g2⟩ := ih a.day
        refine ⟨Day.le_trans (Day.lt_le hd) g1, ?_⟩
        intro x hx
        rcases List.mem_cons.mp hx with h | h
        · rw [h]
          exact g1
        · exact g2 x h
      · rw [if_neg hd]
        obtain ⟨g1, g2⟩ := ih init
        refine ⟨g1, ?_⟩
        intro x hx
        rcases List.mem_cons.mp hx with h | h
        · rw [h]
          exact Day.le_trans (Day.not_lt hd) g1
        · exact g2 x h

/-- Going to January 1 of the year of a lower bound keeps it a lower bound,
for dates with month and day at least 1. -/
theorem startOfYear_le {a b : Day} (hab : Day.le a b) (hm : 1 ≤ b.m) (hd : 1 ≤ b.d) :
    Day.le (startOfYear a) b := by
  unfold startOfYear
  unfold Day.le at *
  dsimp only at *
  omega

/-- Going to December 31 of the year of an upper bound keeps it an upper
bound, for dates with month at most 12 and day at most 31. -/
theorem endOfYear_ge {a b : Day} (hab : Day.le b a) (hm : b.m ≤ 12) (hd : b.d ≤ 31) :
    Day.le b (endOfYear a) := by
  unfold endOfYear
  unfold Day.le at *
  dsimp only at *
  omega

/-- Filtering away everything whose day collides with the inserted list
commutes over the batch insert: the inserted rows are all dropped and the
kept rows are untouched. -/
theorem filter_insertHolidays (tbl : List Holiday) (hs : List Holiday) (p : Holiday → Bool)
    (hp : ∀ x ∈ hs, ∀ r : Holiday, r.day = x.day → p r = false) :
    (insertHolidays tbl hs).filter p = tbl.filter p := by
  induction hs generalizing tbl with
  | nil => rfl
  | cons a t ih =>
      show (insertHolidays (insertHoliday tbl a) t).filter p = tbl.filter p
      rw [ih (insertHoliday tbl a) (fun x hx => hp x (List.mem_cons_of_mem _ hx))]
      rw [insertHoliday, List.filter_append]
      have ha : p a = false := hp a (List.mem_cons_self _ _) a rfl
      have h2 : List.filter p [a] = [] := by simp [ha]
      rw [h2, List.append_nil, List.filter_filter]
      apply List.filter_congr
      intro r hr
      by_cases hd : r.day = a.day
      · have hpr : p r = false := hp a (List.mem_cons_self _ _) r hd
        simp [hpr]
      · simp [hd]

/-- Claim C9: the transactional bulk holiday save (delete the whole year range
of the list, then insert the list) is idempotent: for any valid list of
holidays, running it twice leaves exactly the same table as running it
once. -/
theorem C9_saveManyHolidaysTx (tbl : List Holiday) (hs : List Holiday)
    (hval : ∀ h ∈ hs, 1 ≤ h.day.m ∧ h.day.m ≤ 12 ∧ 1 ≤ h.day.d ∧ h.day.d ≤ 31) :
    saveManyHolidaysTx (saveManyHolidaysTx tbl hs) hs = saveManyHolidaysTx tbl hs := by
  rcases hs with _ | ⟨h0, rest⟩
  · rfl
  · simp only [saveManyHolidaysTx]
    set m := rest.foldl (fun acc x => if Day.lt x.day acc then x.day else acc) h0.day with hm
    set M := rest.foldl (fun acc x => if Day.lt acc x.day then x.day else acc) h0.day with hM
    set p : Holiday → Bool := fun r =>
      !(decide (Day.le (startOfYear m) r.day) && decide (Day.le r.day (endOfYear M))) with hp
    have hrange : ∀ x ∈ h0 :: rest, ∀ r : Holiday, r.day = x.day → p r = false := by
      intro x hx r hr
      have h1 : Day.le m x.day := by
        rcases List.mem_cons.mp hx with h | h
        · rw [h]
          exact (minFold_le h0.day rest).1
        · exact (minFold_le h0.day rest).2 x h
      have h2 : Day.le x.day M := by
        rcases List.mem_cons.mp hx with h | h
        · rw [h]
          exact (maxFold_ge h0.day rest).1
        · exact (maxFold_ge h0.day rest).2 x h
      have hv := hval x hx
      have hlo : Day.le (startOfYear m) r.day := by
        rw [hr]
        exact startOfYear_le h1 hv.1 hv.2.2.1
      have hhi : Day.le r.day (endOfYear M) := by
        rw [hr]
        exact endOfYear_ge h2 hv.2.1 hv.2.2.2
      rw [hp]
      simp [hlo, hhi]
    rw [filter_insertHolidays _ _ p hrange, List.filter_filter]
    congr 1
    apply List.filter_congr
    intro r hr
    cases p r <;> simp

/-- Witness for C9_saveManyHolidaysTx at a concrete table and list. -/
theorem C9_saveManyHolidaysTx_witness :
    saveManyHolidaysTx
        (saveManyHolidaysTx [⟨⟨2024, 6, 1⟩, "Old"⟩] [⟨⟨2024, 3, 1⟩, "New"⟩])
        [⟨⟨2024, 3, 1⟩, "New"⟩] =
      saveManyHolidaysTx [⟨⟨2024, 6, 1⟩, "Old"⟩] [⟨⟨2024, 3, 1⟩, "New"⟩] :=
  C9_saveManyHolidaysTx [⟨⟨2024, 6, 1⟩, "Old"⟩] [⟨⟨2024, 3, 1⟩, "New"⟩] (by decide)
